import Mathlib

/-!
Verification of the repository's ClickHouse datasource connector
(query compiler, size estimator, task partitioner) and of two small
library routines (`ChatTemplateUDF.udf`, `Metrics.record_streamed_response`)
against their natural-language specification.

The production module `ray/data/_internal/datasource/clickhouse_datasource.py`
is not part of the source tree given here (only its test file
`python/ray/data/tests/test_clickhouse.py` is), so the compiler, estimator
and partitioner below are modelled from the specification, with the exact
strings pinned by the test file where the test asserts them byte-for-byte.
`chat_template_stage.py` and `metrics_utils.py` are present and are embedded
directly.
-/

namespace ClickHouse

/-- Modelled from the spec: a scalar filter value of the absent module
`clickhouse_datasource.py`.  Filter values are strings (rendered
single-quoted), numbers (rendered unquoted) or null. -/
inductive Value where
  | str (s : String)
  | int (n : Int)
  | null
deriving DecidableEq, Repr

/-- Modelled from the spec: the structured query description of the absent
module `clickhouse_datasource.py` — table, optional projection list
(`none` means all columns), filter mapping `column -> (operator, value)`
kept as an association list in insertion order, and an optional ordering
specification `(columns, descending)`. -/
structure QuerySpec where
  table : String
  columns : Option (List String)
  filters : List (String × String × Value)
  order_by : Option (List String × Bool)
deriving DecidableEq, Repr

/-- Modelled from the spec: rendering of a filter value — strings are
single-quoted, numbers unquoted. -/
def renderValue : Value → String
  | Value.str s => "'" ++ s ++ "'"
  | Value.int n => toString n
  | Value.null => "NULL"

/-- Modelled from the spec: rendering of one filter clause of the absent
module, parenthesized; the operator `!=` paired with a null value renders
as `col IS NOT NULL` instead of a literal inequality. -/
def renderFilter (f : String × String × Value) : String :=
  match f with
  | (c, op, v) =>
    if op = "!=" ∧ v = Value.null then "(" ++ c ++ " IS NOT NULL)"
    else "(" ++ c ++ " " ++ op ++ " " ++ renderValue v ++ ")"

/-- Modelled from the spec: the projection clause — `SELECT *` when the
column list is absent or empty, otherwise the columns in input order. -/
def selectClause (q : QuerySpec) : String :=
  match q.columns with
  | none => "SELECT *"
  | some [] => "SELECT *"
  | some cols => "SELECT " ++ String.intercalate ", " cols

/-- Modelled from the spec: the FROM clause. -/
def fromClause (q : QuerySpec) : String := "FROM " ++ q.table

/-- Modelled from the spec: the WHERE clause, omitted entirely when the
filter mapping is empty, otherwise the rendered filters joined by `AND`
in insertion order. -/
def whereClause (q : QuerySpec) : Option String :=
  if q.filters = [] then none
  else some ("WHERE " ++ String.intercalate " AND " (q.filters.map renderFilter))

/-- Modelled from the spec: the ORDER BY clause, omitted when the order
specification is absent or its column list empty; a single column renders
bare, several columns render as a parenthesized tuple; ` DESC` is appended
iff descending. -/
def orderClause (q : QuerySpec) : Option String :=
  match q.order_by with
  | none => none
  | some ([], _) => none
  | some ([c], desc) => some ("ORDER BY " ++ c ++ (if desc then " DESC" else ""))
  | some (c1 :: c2 :: cs, desc) =>
      some ("ORDER BY (" ++ String.intercalate ", " (c1 :: c2 :: cs) ++ ")"
        ++ (if desc then " DESC" else ""))

/-- Modelled from the spec: `_generate_query` of the absent module
`clickhouse_datasource.py` — builds the query by appending each applicable
clause to the running string, as the accumulating source described by the
spec does. -/
def generate_query (q : QuerySpec) : String :=
  let base := selectClause q ++ " " ++ fromClause q
  let base1 :=
    match whereClause q with
    | none => base
    | some w => base ++ " " ++ w
  match orderClause q with
  | none => base1
  | some o => base1 ++ " " ++ o

/-- The list of applicable clauses of a query, in the fixed order
SELECT, FROM, WHERE, ORDER BY (each present only when applicable). -/
def clauseList (q : QuerySpec) : List String :=
  [selectClause q, fromClause q] ++ (whereClause q).toList ++ (orderClause q).toList

/-- The compiled query up to and including its WHERE clause: the part every
query starts with, before the optional ORDER BY clause. -/
def baseQuery (q : QuerySpec) : String :=
  selectClause q ++ " " ++ fromClause q
    ++ (match whereClause q with | none => "" | some w => " " ++ w)

/-- Modelled from the spec: the aggregate size-estimate query issued by
`estimate_inmemory_data_size` of the absent module; its exact text is
pinned byte-for-byte by `test_estimate_inmemory_data_size`, which asserts
the alias form `SELECT SUM(byteSize(*)) AS estimate FROM (<base query>)`. -/
def estimateQueryOf (base : String) : String :=
  "SELECT SUM(byteSize(*)) AS estimate FROM (" ++ base ++ ")"

/-- Modelled from the spec: reading a single scalar from the single-row
result of the estimate query; null or absent scalars yield 0. -/
def scalarOrZero (rows : List (List (Option Nat))) : Nat :=
  match rows with
  | (some n :: _) :: _ => n
  | _ => 0

/-- Modelled from the spec: `estimate_inmemory_data_size` of the absent
module `clickhouse_datasource.py`.  The external client is modelled by the
`result_rows` it returns for the issued query; the function returns the
pair (the one query it issues, the byte-count it computes). -/
def estimate_inmemory_data_size (base : String) (result_rows : List (List (Option Nat))) :
    String × Nat :=
  (estimateQueryOf base, scalarOrZero result_rows)

/-- Modelled from the spec: the per-task row targets of the partitioner —
`floor(estRows / parallelism)` rows per task, the first
`estRows mod parallelism` tasks receiving one extra row. -/
def taskTargets (estRows parallelism : Nat) : List Nat :=
  (List.range parallelism).map fun i =>
    estRows / parallelism + if i < estRows % parallelism then 1 else 0

/-- Modelled from the spec: the streaming fill loop of the partitioner —
rows are appended to the current task's accumulator until its target is
reached, then the task is sealed and the next target started; when the
stream runs out, remaining targets produce no task, and no empty task is
ever emitted. -/
def fillTargets : List Nat → Nat → List Nat
  | [], _ => []
  | t :: ts, rem =>
    let tk := min t rem
    if tk = 0 then fillTargets ts rem
    else tk :: fillTargets ts (rem - tk)

/-- Modelled from the spec: `get_read_tasks` of the absent module
`clickhouse_datasource.py`, projected to the `metadata.num_rows` of the
returned tasks (the datum the partition-balance properties speak about).
The stream is the list of batch row-counts; `estRows` is the upfront
row-count estimate from which the targets are computed (the repository
test drives it with the exact stream total). -/
def get_read_tasks (estRows : Nat) (batches : List Nat) (parallelism : Nat) : List Nat :=
  fillTargets (taskTargets estRows parallelism) batches.sum

end ClickHouse

namespace ChatStage

/-- An input row of a batch handed to `ChatTemplateUDF.udf`
(`chat_template_stage.py`).  `messages` is the row's conversation payload,
kept abstract (type `M`): the source normalizes it with `.tolist()` when it
is an array-like value and passes it through otherwise, both branches
yielding the conversation value fed to the chat template.  `idx_in_batch`
is the row's value of the `IDX_IN_BATCH_COLUMN` column; `extra` stands for
any further keys the row may carry. -/
structure InRow (M E : Type) where
  messages : M
  idx_in_batch : Nat
  extra : E
deriving DecidableEq

/-- An output row yielded by `ChatTemplateUDF.udf`: by construction it has
exactly the two keys `IDX_IN_BATCH_COLUMN` and `prompt`. -/
structure OutRow where
  idx_in_batch : Nat
  prompt : String
deriving DecidableEq, Inhabited

/-- Embedding of `ChatTemplateUDF.udf` (`chat_template_stage.py`).  The
processor's `apply_chat_template` is the abstract parameter
`applyChatTemplate`, mapping the collected list of conversations to the
list of prompts.  The source's `assert len(batch) == len(prompts)` is the
guard: a length mismatch raises, modelled as `none`.  On success the
function yields, for each input row in order, a row holding that row's
`IDX_IN_BATCH_COLUMN` value and its prompt. -/
def ChatTemplateUDF.udf {M E : Type} (applyChatTemplate : List M → List String)
    (batch : List (InRow M E)) : Option (List OutRow) :=
  let messages := batch.map InRow.messages
  let prompts := applyChatTemplate messages
  if batch.length = prompts.length then
    some ((batch.zip prompts).map fun rp => OutRow.mk rp.1.idx_in_batch rp.2)
  else none

end ChatStage

namespace MetricsM

/-- The tag dictionary attached to a counter increment: an association
list of tag key/value pairs. -/
abbrev TagDict := List (String × String)

/-- A counter's state, recorded as the list of increments performed on it,
each with its amount and its tags (`ray.util.metrics.Counter` is external;
its `inc` appends an increment). -/
abbrev CounterLog := List (Nat × TagDict)

def _MODEL_ID_TAG_KEY : String := "model_id"

def _USER_ID_TAG_KEY : String := "user_id"

def _UNKNOWN_USER_ID_VAL : String := "unknown"

/-- `Counter.inc(amount, tags=tags)` of the external metrics counter:
records one increment. -/
def Counter.inc (c : CounterLog) (amount : Nat) (tags : TagDict) : CounterLog :=
  c ++ [(amount, tags)]

/-- The five counters of `Metrics` (`metrics_utils.py`). -/
structure Metrics where
  requests_started : CounterLog
  requests_finished : CounterLog
  requests_errored : CounterLog
  tokens_generated : CounterLog
  tokens_input : CounterLog
deriving DecidableEq

/-- Embedding of `Metrics._get_tags` (`metrics_utils.py`): a dictionary
with exactly the `model_id` and `user_id` keys. -/
def Metrics.get_tags (model_id user_id : String) : TagDict :=
  [(_MODEL_ID_TAG_KEY, model_id), (_USER_ID_TAG_KEY, user_id)]

/-- The fields of `LLMRawResponse` that `record_streamed_response` reads.
`num_generated_tokens` is its token count with Python truthiness `≠ 0`
(a `None` count behaves as 0); `error` is the truthiness of the response's
error field; `finish_reason` is optional. -/
structure LLMRawResponse where
  num_generated_tokens : Nat
  error : Bool
  finish_reason : Option String
deriving DecidableEq

/-- Embedding of `Metrics.record_streamed_response` (`metrics_utils.py`):
computes the tags once, then conditionally increments `tokens_generated`,
`requests_errored` and `requests_finished`, in source order. -/
def Metrics.record_streamed_response (m : Metrics) (res : LLMRawResponse)
    (model_id user_id : String) : Metrics :=
  let tags := Metrics.get_tags model_id user_id
  let m1 :=
    if res.num_generated_tokens ≠ 0 then
      { m with tokens_generated := Counter.inc m.tokens_generated res.num_generated_tokens tags }
    else m
  let m2 :=
    if res.error then
      { m1 with requests_errored := Counter.inc m1.requests_errored 1 tags }
    else m1
  if res.finish_reason.isSome then
    { m2 with requests_finished := Counter.inc m2.requests_finished 1 tags }
  else m2

/-- `record_streamed_response` called without the keyword-only `user_id`
argument: the source defaults it to `_UNKNOWN_USER_ID_VAL`. -/
def Metrics.record_streamed_response_default (m : Metrics) (res : LLMRawResponse)
    (model_id : String) : Metrics :=
  Metrics.record_streamed_response m res model_id _UNKNOWN_USER_ID_VAL

end MetricsM

namespace ClickHouse

theorem fillTargets_pos : ∀ (ts : List Nat) (rem : Nat), ∀ c ∈ fillTargets ts rem, 0 < c := by
  intro ts
  induction ts with
  | nil => intro rem c hc; simp [fillTargets] at hc
  | cons t ts ih =>
    intro rem c hc
    by_cases h : min t rem = 0
    · rw [fillTargets, if_pos h] at hc
      exact ih rem c hc
    · rw [fillTargets, if_neg h] at hc
      rcases List.mem_cons.mp hc with h2 | h2
      · subst h2; omega
      · exact ih _ c h2

theorem fillTargets_sum_le : ∀ (ts : List Nat) (rem : Nat), (fillTargets ts rem).sum ≤ rem := by
  intro ts
  induction ts with
  | nil => intro rem; simp [fillTargets]
  | cons t ts ih =>
    intro rem
    by_cases h : min t rem = 0
    · rw [fillTargets, if_pos h]; exact ih rem
    · rw [fillTargets, if_neg h]
      have := ih (rem - min t rem)
      simp only [List.sum_cons]
      omega

theorem fillTargets_length_le : ∀ (ts : List Nat) (rem : Nat),
    (fillTargets ts rem).length ≤ rem := by
  intro ts
  induction ts with
  | nil => intro rem; simp [fillTargets]
  | cons t ts ih =>
    intro rem
    by_cases h : min t rem = 0
    · rw [fillTargets, if_pos h]; exact ih rem
    · rw [fillTargets, if_neg h]
      have := ih (rem - min t rem)
      simp only [List.length_cons]
      omega

theorem fillTargets_sum_ge : ∀ (ts : List Nat) (rem : Nat),
    rem ≤ ts.sum → rem ≤ (fillTargets ts rem).sum := by
  intro ts
  induction ts with
  | nil => intro rem h; simpa [fillTargets] using h
  | cons t ts ih =>
    intro rem h
    simp only [List.sum_cons] at h
    by_cases h0 : min t rem = 0
    · rw [fillTargets, if_pos h0]
      have : t = 0 ∨ rem = 0 := by omega
      rcases this with h1 | h1
      · exact ih rem (by omega)
      · simp [h1]
    · rw [fillTargets, if_neg h0]
      have hih := ih (rem - min t rem) (by omega)
      simp only [List.sum_cons]
      omega

theorem fillTargets_le_bound : ∀ (ts : List Nat) (rem : Nat), (∀ t ∈ ts, t ≤ 1) →
    ∀ c ∈ fillTargets ts rem, c ≤ 1 := by
  intro ts
  induction ts with
  | nil => intro rem _ c hc; simp [fillTargets] at hc
  | cons t ts ih =>
    intro rem hb c hc
    have hts : ∀ x ∈ ts, x ≤ 1 := fun x hx => hb x (List.mem_cons_of_mem t hx)
    by_cases h : min t rem = 0
    · rw [fillTargets, if_pos h] at hc
      exact ih rem hts c hc
    · rw [fillTargets, if_neg h] at hc
      rcases List.mem_cons.mp hc with h2 | h2
      · have := hb t (List.mem_cons_self t ts)
        subst h2; omega
      · exact ih _ hts c h2

theorem fillTargets_exact : ∀ (ts : List Nat), (∀ t ∈ ts, 0 < t) →
    fillTargets ts ts.sum = ts := by
  intro ts
  induction ts with
  | nil => intro _; simp [fillTargets]
  | cons t ts ih =>
    intro h
    have ht : 0 < t := h t (List.mem_cons_self t ts)
    have hmin : min t (t + ts.sum) = t := Nat.min_eq_left (Nat.le_add_right _ _)
    rw [List.sum_cons, fillTargets, hmin, if_neg (by omega)]
    have hsub : t + ts.sum - t = ts.sum := by omega
    rw [hsub, ih (fun x hx => h x (List.mem_cons_of_mem t hx))]

theorem sum_range_add (f g : Nat → Nat) : ∀ n,
    ((List.range n).map fun i => f i + g i).sum
      = ((List.range n).map f).sum + ((List.range n).map g).sum := by
  intro n
  induction n with
  | zero => simp
  | succ k ih => simp [List.range_succ, ih]; omega

theorem sum_range_const (c : Nat) : ∀ n, ((List.range n).map fun _ => c).sum = n * c := by
  intro n
  induction n with
  | zero => simp
  | succ k ih => simp [List.range_succ, ih, Nat.succ_mul]

theorem sum_range_indicator (m : Nat) : ∀ n,
    ((List.range n).map fun i => if i < m then 1 else 0).sum = min m n := by
  intro n
  induction n with
  | zero => simp
  | succ k ih =>
    rcases Nat.lt_or_ge k m with h | h
    · simp [List.range_succ, ih, h]; omega
    · simp [List.range_succ, ih, Nat.not_lt.mpr h]; omega

theorem taskTargets_sum (R P : Nat) (hP : 0 < P) : (taskTargets R P).sum = R := by
  unfold taskTargets
  rw [sum_range_add (fun _ => R / P) (fun i => if i < R % P then 1 else 0) P,
    sum_range_const, sum_range_indicator]
  have hmod : R % P < P := Nat.mod_lt _ hP
  have h1 : min (R % P) P = R % P := Nat.min_eq_left (Nat.le_of_lt hmod)
  have h2 : P * (R / P) + R % P = R := Nat.div_add_mod R P
  omega

theorem taskTargets_length (R P : Nat) : (taskTargets R P).length = P := by
  simp [taskTargets]

theorem taskTargets_getElem (R P i : Nat) (hi : i < P) :
    (taskTargets R P)[i]? = some (R / P + if i < R % P then 1 else 0) := by
  unfold taskTargets
  rw [List.getElem?_map, List.getElem?_range hi]
  rfl

theorem taskTargets_pos (R P : Nat) (hP : P ≤ R) (h0 : 0 < P) :
    ∀ t ∈ taskTargets R P, 0 < t := by
  intro t ht
  unfold taskTargets at ht
  rcases List.mem_map.mp ht with ⟨i, hi, rfl⟩
  have h1 : 1 ≤ R / P := (Nat.one_le_div_iff h0).mpr hP
  split <;> omega

theorem taskTargets_le_one (R P : Nat) (h : R < P) : ∀ t ∈ taskTargets R P, t ≤ 1 := by
  intro t ht
  unfold taskTargets at ht
  rcases List.mem_map.mp ht with ⟨i, hi, rfl⟩
  have h1 : R / P = 0 := Nat.div_eq_of_lt h
  split <;> omega

/-- C1: for every row stream totaling R rows and every parallelism P with
1 ≤ P ≤ R (the upfront estimate matching the stream total, as the
repository test drives it), `get_read_tasks` returns exactly P tasks; the
task at index i has `num_rows = R / P + 1` when `i < R % P` and `R / P`
otherwise; the row counts sum to R, and any two counts differ by at most
one. -/
theorem get_read_tasks_partition_balance (batches : List Nat) (P : Nat)
    (h1 : 1 ≤ P) (h2 : P ≤ batches.sum) :
    (get_read_tasks batches.sum batches P).length = P ∧
    (∀ i, i < P → (get_read_tasks batches.sum batches P)[i]?
        = some (batches.sum / P + if i < batches.sum % P then 1 else 0)) ∧
    (get_read_tasks batches.sum batches P).sum = batches.sum ∧
    (∀ a ∈ get_read_tasks batches.sum batches P,
      ∀ b ∈ get_read_tasks batches.sum batches P, a ≤ b + 1) := by
  have h0 : 0 < P := h1
  have hpos := taskTargets_pos batches.sum P h2 h0
  have hsum := taskTargets_sum batches.sum P h0
  have key : get_read_tasks batches.sum batches P = taskTargets batches.sum P := by
    unfold get_read_tasks
    have hx := fillTargets_exact (taskTargets batches.sum P) hpos
    rw [hsum] at hx
    exact hx
  refine ⟨?_, ?_, ?_, ?_⟩
  · rw [key, taskTargets_length]
  · intro i hi
    rw [key, taskTargets_getElem _ _ _ hi]
  · rw [key, hsum]
  · intro a ha b hb
    rw [key] at ha hb
    unfold taskTargets at ha hb
    rcases List.mem_map.mp ha with ⟨i, hi, rfl⟩
    rcases List.mem_map.mp hb with ⟨j, hj, rfl⟩
    split_ifs <;> omega

theorem get_read_tasks_partition_balance_witness :
    (get_read_tasks (List.sum [8, 8]) [8, 8] 3).length = 3 ∧
    get_read_tasks (List.sum [8, 8]) [8, 8] 3 = [6, 5, 5] :=
  ⟨(get_read_tasks_partition_balance [8, 8] 3 (by decide) (by decide)).1, by decide⟩

/-- C2: when the stream totals fewer rows than the requested parallelism,
`get_read_tasks` returns exactly R (hence at most R) tasks, all non-empty
— no empty placeholder tasks; and a source with zero rows yields the empty
task sequence for every parallelism. -/
theorem get_read_tasks_small_source (batches : List Nat) (P : Nat) :
    (batches.sum < P →
      (get_read_tasks batches.sum batches P).length = batches.sum ∧
      ∀ c ∈ get_read_tasks batches.sum batches P, 0 < c) ∧
    (batches.sum = 0 → get_read_tasks batches.sum batches P = []) := by
  have hunf : get_read_tasks batches.sum batches P
      = fillTargets (taskTargets batches.sum P) batches.sum := rfl
  constructor
  · intro h
    have h0 : 0 < P := Nat.lt_of_le_of_lt (Nat.zero_le _) h
    have hb1 := taskTargets_le_one batches.sum P h
    have hsum := taskTargets_sum batches.sum P h0
    have hpos : ∀ c ∈ get_read_tasks batches.sum batches P, 0 < c := by
      rw [hunf]; exact fillTargets_pos _ _
    refine ⟨?_, hpos⟩
    have hle : (get_read_tasks batches.sum batches P).sum ≤ batches.sum := by
      rw [hunf]; exact fillTargets_sum_le _ _
    have hge : batches.sum ≤ (get_read_tasks batches.sum batches P).sum := by
      rw [hunf]; exact fillTargets_sum_ge _ _ (le_of_eq hsum.symm)
    have hone : ∀ c ∈ get_read_tasks batches.sum batches P, c ≤ 1 := by
      rw [hunf]; exact fillTargets_le_bound _ _ hb1
    have hall1 : ∀ c ∈ get_read_tasks batches.sum batches P, c = 1 :=
      fun c hc => Nat.le_antisymm (hone c hc) (hpos c hc)
    have hrepl := List.eq_replicate_of_mem hall1
    have hlensum : (get_read_tasks batches.sum batches P).sum
        = (get_read_tasks batches.sum batches P).length := by
      conv =>
        lhs
        rw [hrepl]
      simp [List.sum_replicate]
    omega
  · intro h
    have hlen : (get_read_tasks batches.sum batches P).length ≤ batches.sum := by
      rw [hunf]; exact fillTargets_length_le _ _
    rw [h] at hlen ⊢
    exact List.length_eq_zero.mp (Nat.le_zero.mp hlen)

theorem get_read_tasks_small_source_witness :
    (get_read_tasks (List.sum [2]) [2] 5).length = 2 ∧
    get_read_tasks (List.sum [2]) [2] 5 = [1, 1] ∧
    get_read_tasks (List.sum ([] : List Nat)) [] 2 = [] :=
  ⟨((get_read_tasks_small_source [2] 5).1 (by decide)).1, by decide,
    (get_read_tasks_small_source [] 2).2 (by decide)⟩

end ClickHouse

namespace ClickHouse

theorem generate_query_base (q : QuerySpec) :
    generate_query q = baseQuery q
      ++ (match orderClause q with | none => "" | some o => " " ++ o) := by
  unfold generate_query baseQuery
  cases hw : whereClause q <;> cases ho : orderClause q <;>
    simp [String.append_assoc]

theorem generate_query_select_prefix (q : QuerySpec) :
    ∃ rest, generate_query q = selectClause q ++ rest := by
  unfold generate_query
  rcases hw : whereClause q with _ | w <;> rcases ho : orderClause q with _ | o
  · exact ⟨" " ++ fromClause q, by simp [String.append_assoc]⟩
  · exact ⟨" " ++ (fromClause q ++ (" " ++ o)), by simp [String.append_assoc]⟩
  · exact ⟨" " ++ (fromClause q ++ (" " ++ w)), by simp [String.append_assoc]⟩
  · exact ⟨" " ++ (fromClause q ++ (" " ++ (w ++ (" " ++ o)))),
      by simp [String.append_assoc]⟩

/-- C4: every compiled query is the single-space join of exactly the
applicable clauses, in the fixed order SELECT, FROM, WHERE, ORDER BY, with
no trailing whitespace; the spec's full example and the test's
constructor-time query compile byte-identically. -/
theorem generate_query_clause_order :
    (∀ q : QuerySpec, generate_query q = String.intercalate " " (clauseList q)) ∧
    generate_query ⟨"t", some ["a", "b", "c"], [], some (["a", "b"], true)⟩
      = "SELECT a, b, c FROM t ORDER BY (a, b) DESC" ∧
    generate_query ⟨"default.table_name", some ["column1", "column2"],
        [("column1", "==", Value.str "value1"), ("column2", ">", Value.int 10)],
        some (["column1"], false)⟩
      = "SELECT column1, column2 FROM default.table_name WHERE (column1 == 'value1') AND (column2 > 10) ORDER BY column1" := by
  refine ⟨?_, by decide, by decide⟩
  intro q
  unfold generate_query clauseList
  cases hw : whereClause q <;> cases ho : orderClause q <;> rfl

/-- C5: with a non-empty filter mapping the compiled query carries a WHERE
clause holding every filter as a parenthesized `(column OP value)` clause,
joined by `AND` in insertion order, string values single-quoted, numeric
values unquoted, and `!=` against a null value rendered as
`column IS NOT NULL`; with an empty mapping the WHERE clause is omitted
entirely.  The spec's three filter examples compile as stated. -/
theorem generate_query_filters_spec :
    (∀ q : QuerySpec, q.filters ≠ [] →
      generate_query q
        = selectClause q ++ " " ++ fromClause q ++ " "
          ++ ("WHERE " ++ String.intercalate " AND " (q.filters.map fun f =>
              match f with
              | (c, op, v) =>
                if op = "!=" ∧ v = Value.null then "(" ++ c ++ " IS NOT NULL)"
                else "(" ++ c ++ " " ++ op ++ " "
                  ++ (match v with
                      | Value.str s => "'" ++ s ++ "'"
                      | Value.int n => toString n
                      | Value.null => "NULL") ++ ")"))
          ++ (match orderClause q with | none => "" | some o => " " ++ o)) ∧
    (∀ q : QuerySpec, q.filters = [] →
      generate_query q
        = selectClause q ++ " " ++ fromClause q
          ++ (match orderClause q with | none => "" | some o => " " ++ o)) ∧
    generate_query ⟨"t", none, [("a", "==", Value.str "v")], none⟩
      = "SELECT * FROM t WHERE (a == 'v')" ∧
    generate_query ⟨"t", none, [("a", ">", Value.int 10)], none⟩
      = "SELECT * FROM t WHERE (a > 10)" ∧
    generate_query ⟨"t", none, [("a", "!=", Value.null)], none⟩
      = "SELECT * FROM t WHERE (a IS NOT NULL)" := by
  refine ⟨?_, ?_, by decide, by decide, by decide⟩
  · intro q hne
    have hfun : (fun f : String × String × Value =>
        match f with
        | (c, op, v) =>
          if op = "!=" ∧ v = Value.null then "(" ++ c ++ " IS NOT NULL)"
          else "(" ++ c ++ " " ++ op ++ " "
            ++ (match v with
                | Value.str s => "'" ++ s ++ "'"
                | Value.int n => toString n
                | Value.null => "NULL") ++ ")") = renderFilter := by
      funext f
      rcases f with ⟨c, op, v⟩
      rfl
    rw [hfun]
    unfold generate_query
    have hw : whereClause q
        = some ("WHERE " ++ String.intercalate " AND " (q.filters.map renderFilter)) := by
      unfold whereClause
      rw [if_neg hne]
    rw [hw]
    cases ho : orderClause q <;> simp [String.append_assoc]
  · intro q hemp
    have hw : whereClause q = none := by
      unfold whereClause
      rw [if_pos hemp]
    unfold generate_query
    rw [hw]
    cases ho : orderClause q <;> simp [String.append_assoc]

/-- C6: the ORDER BY clause is omitted when the order specification is
absent or its column list empty; one column renders `ORDER BY col`,
several render `ORDER BY (c1, c2, …)`, and ` DESC` is appended exactly
once — after the closing parenthesis in the multi-column case — iff the
descending flag is true.  The spec's four ordering examples compile as
stated. -/
theorem generate_query_order_by_spec :
    (∀ q : QuerySpec, (q.order_by = none ∨ ∃ b, q.order_by = some ([], b)) →
      generate_query q = baseQuery q) ∧
    (∀ (q : QuerySpec) (c : String) (desc : Bool), q.order_by = some ([c], desc) →
      generate_query q = baseQuery q ++ " "
        ++ ("ORDER BY " ++ c ++ (if desc then " DESC" else ""))) ∧
    (∀ (q : QuerySpec) (c1 c2 : String) (cs : List String) (desc : Bool),
      q.order_by = some (c1 :: c2 :: cs, desc) →
      generate_query q = baseQuery q ++ " "
        ++ ("ORDER BY (" ++ String.intercalate ", " (c1 :: c2 :: cs) ++ ")"
            ++ (if desc then " DESC" else ""))) ∧
    generate_query ⟨"t", none, [], some (["a"], false)⟩ = "SELECT * FROM t ORDER BY a" ∧
    generate_query ⟨"t", none, [], some (["a"], true)⟩ = "SELECT * FROM t ORDER BY a DESC" ∧
    generate_query ⟨"t", none, [], some (["a", "b"], false)⟩
      = "SELECT * FROM t ORDER BY (a, b)" ∧
    generate_query ⟨"t", none, [], some (["a", "b"], true)⟩
      = "SELECT * FROM t ORDER BY (a, b) DESC" := by
  refine ⟨?_, ?_, ?_, by decide, by decide, by decide, by decide⟩
  · intro q h
    have ho : orderClause q = none := by
      unfold orderClause
      rcases h with h | ⟨b, h⟩ <;> rw [h]
    rw [generate_query_base, ho]
    simp
  · intro q c desc h
    have ho : orderClause q = some ("ORDER BY " ++ c ++ (if desc then " DESC" else "")) := by
      unfold orderClause
      rw [h]
    rw [generate_query_base, ho]
    simp [String.append_assoc]
  · intro q c1 c2 cs desc h
    have ho : orderClause q
        = some ("ORDER BY (" ++ String.intercalate ", " (c1 :: c2 :: cs) ++ ")"
            ++ (if desc then " DESC" else "")) := by
      unfold orderClause
      rw [h]
    rw [generate_query_base, ho]
    simp [String.append_assoc]

/-- C7: the projection clause is `SELECT *` when the column list is absent
or empty, and otherwise `SELECT c1, c2, …` in input order with no
deduplication (the concrete duplicate example keeps both copies) and no
validation of the column names. -/
theorem generate_query_projection_spec :
    (∀ q : QuerySpec, q.columns = none ∨ q.columns = some [] →
      ∃ rest, generate_query q = "SELECT *" ++ rest) ∧
    (∀ (q : QuerySpec) (cols : List String), q.columns = some cols → cols ≠ [] →
      ∃ rest, generate_query q = ("SELECT " ++ String.intercalate ", " cols) ++ rest) ∧
    generate_query ⟨"t", some ["a", "a"], [], none⟩ = "SELECT a, a FROM t" := by
  refine ⟨?_, ?_, by decide⟩
  · intro q h
    obtain ⟨rest, hr⟩ := generate_query_select_prefix q
    refine ⟨rest, ?_⟩
    rw [hr]
    have hsel : selectClause q = "SELECT *" := by
      unfold selectClause
      rcases h with h | h <;> rw [h]
    rw [hsel]
  · intro q cols hc hne
    obtain ⟨rest, hr⟩ := generate_query_select_prefix q
    refine ⟨rest, ?_⟩
    rw [hr]
    have hsel : selectClause q = "SELECT " ++ String.intercalate ", " cols := by
      unfold selectClause
      rw [hc]
      cases cols with
      | nil => exact absurd rfl hne
      | cons a as => rfl
    rw [hsel]

/-- C8: query compilation is deterministic — compiling a QuerySpec twice
yields the same string, and any two QuerySpecs with equal table, column
sequence, filter mapping (same insertion order) and ordering specification
compile to byte-identical query strings. -/
theorem generate_query_deterministic :
    (∀ q : QuerySpec, generate_query q = generate_query q) ∧
    (∀ q1 q2 : QuerySpec, q1.table = q2.table → q1.columns = q2.columns →
      q1.filters = q2.filters → q1.order_by = q2.order_by →
      generate_query q1 = generate_query q2) := by
  refine ⟨fun q => rfl, ?_⟩
  intro q1 q2 h1 h2 h3 h4
  cases q1
  cases q2
  cases h1
  cases h2
  cases h3
  cases h4
  rfl

/-- C3 counterexample: the issued aggregate query is not the literal form
`SELECT SUM(byteSize(*)) FROM (<base query>)` — the repository test pins
the alias form `SELECT SUM(byteSize(*)) AS estimate FROM (<base query>)`. -/
theorem estimate_query_form_counterexample :
    (estimate_inmemory_data_size "SELECT * FROM t" [[some 12345]]).1
      ≠ "SELECT SUM(byteSize(*)) FROM (SELECT * FROM t)" := by decide

/-- C3 (amended): `estimate_inmemory_data_size` issues exactly one
aggregate query, of the form
`SELECT SUM(byteSize(*)) AS estimate FROM (<compiled base query>)`, and
returns the single scalar of the single-row result (e.g. result rows
`[[12345]]` yield 12345); a null or absent underlying scalar yields 0, and
the returned value is always a non-negative integer. -/
theorem estimate_inmemory_data_size_spec (base : String)
    (result_rows : List (List (Option Nat))) :
    (estimate_inmemory_data_size base result_rows).1
      = "SELECT SUM(byteSize(*)) AS estimate FROM (" ++ base ++ ")" ∧
    (∀ n rest rrest, result_rows = (some n :: rest) :: rrest →
      (estimate_inmemory_data_size base result_rows).2 = n) ∧
    (result_rows = [] → (estimate_inmemory_data_size base result_rows).2 = 0) ∧
    (∀ rrest, result_rows = [] :: rrest →
      (estimate_inmemory_data_size base result_rows).2 = 0) ∧
    (∀ rest rrest, result_rows = (none :: rest) :: rrest →
      (estimate_inmemory_data_size base result_rows).2 = 0) ∧
    0 ≤ (estimate_inmemory_data_size base result_rows).2 := by
  refine ⟨rfl, ?_, ?_, ?_, ?_, Nat.zero_le _⟩ <;> intros <;> subst_eqs <;> rfl

end ClickHouse

namespace ChatStage

theorem zip_getElemQ {α β : Type} : ∀ (l1 : List α) (l2 : List β) (i : Nat),
    (l1.zip l2)[i]? = (l1[i]?).bind fun a => (l2[i]?).map fun b => (a, b) := by
  intro l1
  induction l1 with
  | nil => intro l2 i; simp
  | cons a l1 ih =>
    intro l2 i
    cases l2 with
    | nil => simp
    | cons b l2 =>
      cases i with
      | zero => simp
      | succ j => simpa using ih l2 j

/-- C9: whenever `ChatTemplateUDF.udf` succeeds, it yields exactly one
output row per input row, in batch order: the output at index i holds
exactly the batch-index column, copied unchanged from input row i, and the
prompt the chat template produced for row i's messages (`OutRow` has
exactly those two keys by construction). -/
theorem udf_one_row_per_input {M E : Type} (applyChatTemplate : List M → List String)
    (batch : List (InRow M E)) (out : List OutRow)
    (h : ChatTemplateUDF.udf applyChatTemplate batch = some out) (i : Nat) :
    out.length = batch.length ∧
    out[i]? = (batch[i]?).bind fun r =>
      ((applyChatTemplate (batch.map InRow.messages))[i]?).map fun p =>
        OutRow.mk r.idx_in_batch p := by
  unfold ChatTemplateUDF.udf at h
  by_cases hlen : batch.length = (applyChatTemplate (batch.map InRow.messages)).length
  · rw [if_pos hlen] at h
    have hout : out = (batch.zip (applyChatTemplate (batch.map InRow.messages))).map
        fun rp => OutRow.mk rp.1.idx_in_batch rp.2 := (Option.some.injEq _ _ ▸ h).symm
    constructor
    · rw [hout]
      simp [List.length_zip, hlen]
    · rw [hout, List.getElem?_map, zip_getElemQ]
      cases hb : batch[i]? <;>
        cases hp : (applyChatTemplate (batch.map InRow.messages))[i]? <;> rfl
  · rw [if_neg hlen] at h
    exact absurd h (by simp)

/-- Witness for C9 at a concrete two-row batch. -/
theorem udf_one_row_per_input_witness :
    ([OutRow.mk 0 "5", OutRow.mk 1 "7"] : List OutRow).length = 2 ∧
    ([OutRow.mk 0 "5", OutRow.mk 1 "7"] : List OutRow)[1]? = some (OutRow.mk 1 "7") := by
  have h := udf_one_row_per_input (fun l => l.map toString)
    [InRow.mk (5 : Nat) 0 (), InRow.mk 7 1 ()] [OutRow.mk 0 "5", OutRow.mk 1 "7"] rfl 1
  exact ⟨h.1, h.2⟩

end ChatStage

namespace MetricsM

/-- C10: one call to `record_streamed_response` leaves `requests_started`
and `tokens_input` unchanged; it increments `requests_finished` by one iff
the response's finish reason is present, `requests_errored` by one iff the
response's error field is truthy, and adds `num_generated_tokens` to
`tokens_generated` iff that count is nonzero; every increment it performs
carries exactly the `model_id` and `user_id` tag keys, and the `user_id`
argument defaults to "unknown" when not supplied. -/
theorem record_streamed_response_spec (m : Metrics) (res : LLMRawResponse)
    (model_id user_id : String) :
    (Metrics.record_streamed_response m res model_id user_id).requests_started
        = m.requests_started ∧
    (Metrics.record_streamed_response m res model_id user_id).tokens_input
        = m.tokens_input ∧
    (Metrics.record_streamed_response m res model_id user_id).requests_finished
        = (if res.finish_reason.isSome then
            m.requests_finished ++ [(1, [("model_id", model_id), ("user_id", user_id)])]
          else m.requests_finished) ∧
    (Metrics.record_streamed_response m res model_id user_id).requests_errored
        = (if res.error then
            m.requests_errored ++ [(1, [("model_id", model_id), ("user_id", user_id)])]
          else m.requests_errored) ∧
    (Metrics.record_streamed_response m res model_id user_id).tokens_generated
        = (if res.num_generated_tokens ≠ 0 then
            m.tokens_generated
              ++ [(res.num_generated_tokens, [("model_id", model_id), ("user_id", user_id)])]
          else m.tokens_generated) ∧
    Metrics.record_streamed_response_default m res model_id
        = Metrics.record_streamed_response m res model_id "unknown" := by
  refine ⟨?_, ?_, ?_, ?_, ?_, rfl⟩ <;>
  · unfold Metrics.record_streamed_response Metrics.get_tags Counter.inc
      _MODEL_ID_TAG_KEY _USER_ID_TAG_KEY
    by_cases h1 : res.num_generated_tokens ≠ 0 <;>
      by_cases h2 : res.error = true <;>
      by_cases h3 : res.finish_reason.isSome <;>
        simp [h1, h2, h3]

end MetricsM
